import Mathlib

/-!
Shallow embedding of the Auto_3 estimate-matching pipeline
(`src/excel_utils.py`, `src/level3_match_prices.py`) and verification of
the behavioural claims about it.  Cell values are modelled by `Cell`,
dataframes by `List (List Cell)`, the SQLite `estimate_items` table by a
`List EstimateItem` in insertion order, and `ORDER BY file_datetime DESC`
by an insertion sort on a `Nat` timestamp (ISO date strings compare
lexicographically, which the `Nat` order mirrors).  Floats carrying
prices and quantities are modelled by `ℚ`.
-/

namespace Auto3

/-- Python cell values as seen by `normalize_text` / `to_float`:
`None`, a float NaN coming from pandas, or a string.  Numeric cells reach
`normalize_text` only through `str(value)`, so their textual form is
represented by the `str` constructor. -/
inductive Cell where
  | none
  | nan
  | str (s : String)
deriving DecidableEq, Repr

/-- Whitespace characters recognised by Python's `str.split()` (restricted
to the fragment modelled here: ASCII whitespace and NO-BREAK SPACE). -/
def pyIsSpace (c : Char) : Bool :=
  c = ' ' || c = '\t' || c = '\n' || c = '\r' || c = '\x0b' || c = '\x0c' || c = ' '

/-- Canonical composition used by `unicodedata.normalize("NFC", ·)`,
restricted to a character fragment: the only primary composite modelled
is LATIN SMALL LETTER E followed by COMBINING ACUTE ACCENT, composing to
U+00E9.  On strings over this fragment (ASCII, NO-BREAK SPACE, U+0301,
U+00E9) the model is faithful to Unicode NFC. -/
def composePair (a b : Char) : Option Char :=
  if a = 'e' ∧ b = '́' then some (Char.ofNat 0xE9) else Option.none

/-- One left-to-right composition pass: the accumulator holds the output
so far in reverse; each incoming character is composed with the previous
output character when a primary composite exists. -/
def nfcAux : List Char → List Char → List Char
  | acc, [] => acc.reverse
  | acc, c :: rest =>
    match acc with
    | [] => nfcAux [c] rest
    | a :: acc' =>
      match composePair a c with
      | some d => nfcAux (d :: acc') rest
      | Option.none => nfcAux (c :: a :: acc') rest

/-- NFC over the modelled fragment. -/
def nfcChars (l : List Char) : List Char := nfcAux [] l

/-- Embedding of `excel_utils.normalize_text`: `None`/NaN map to the
empty string, any other value is converted to text, NFC-composed, and has
every whitespace character removed (`"".join(text.split())`). -/
def normalize_text : Cell → String
  | Cell.none => ""
  | Cell.nan => ""
  | Cell.str s => String.mk ((nfcChars s.data).filter (fun c => !pyIsSpace c))

/-- Embedding of `level3_match_prices.normalize_code`: upper-case, then
drop every character that is not an ASCII letter or digit
(`re.sub(r"[^0-9a-zA-Z]", "", value.upper())`). -/
def normalize_code (s : String) : String :=
  String.mk ((s.data.map Char.toUpper).filter (fun c => c.isAlpha || c.isDigit))

/-- Python's `s.endswith(t)`: `t` is a suffix of `s`, character-wise. -/
def pyEndsWith (s t : String) : Bool := t.data.isSuffixOf s.data

/-- Acceptance test applied to each candidate inside the scan loop of
`lookup_latest_price_fuzzy_spec`: both fuzzy keys non-empty and one a
suffix of the other (either direction).  The target-key emptiness guard
is the early `if not target: return None` of the source. -/
def fuzzy_match (a b : String) : Bool :=
  let ka := normalize_code a
  let kb := normalize_code b
  ka != "" && kb != "" && (pyEndsWith ka kb || pyEndsWith kb ka)

/-- A row of the SQLite `estimate_items` table, as selected by the
lookup queries of `level3_match_prices.py`.  `file_datetime` is the ISO
timestamp string, modelled as a `Nat` with the same ordering. -/
structure EstimateItem where
  source_file : String
  source_sheet : String
  file_datetime : Nat
  a7_text : String
  «품명» : String
  «규격» : String
  «단가» : Option ℚ
deriving DecidableEq, Repr

/-- Embedding of `excel_utils.RequestRow` (the fields `match_prices`
reads). -/
structure RequestRow where
  source_file : String
  source_sheet : String
  «품명» : String
  «규격» : String
  «제조사» : String
  «단위» : String
  «구매량» : Option ℚ
deriving DecidableEq, Repr

/-- One entry of the `candidates` list built by `match_prices` (a dict
with keys «단가», «견적서파일», «시트», «견적날짜», A7 in the source). -/
structure Candidate where
  «단가» : Option ℚ
  «견적서파일» : String
  «시트» : String
  «견적날짜» : Nat
  A7 : String
deriving DecidableEq, Repr

/-- Embedding of `level3_match_prices.MatchedRow`. -/
structure MatchedRow where
  request : RequestRow
  matched : Bool
  match_method : Option String
  matched_source_file : Option String
  matched_source_sheet : Option String
  matched_file_datetime : Option Nat
  matched_a7_text : Option String
  «단가» : Option ℚ
  «금액» : Option ℚ
  status : String
  candidates : List Candidate
deriving DecidableEq, Repr

/-- Newest-first ordering used by every `ORDER BY file_datetime DESC`. -/
def dateDesc (a b : EstimateItem) : Prop := b.file_datetime ≤ a.file_datetime

instance : DecidableRel dateDesc := fun _ _ => Nat.decLe _ _

instance : IsTotal EstimateItem dateDesc :=
  ⟨fun a b => le_total b.file_datetime a.file_datetime⟩

instance : IsTrans EstimateItem dateDesc :=
  ⟨fun _ _ _ h1 h2 => le_trans h2 h1⟩

/-- Model of `ORDER BY file_datetime DESC` on a result set. -/
def sortByDateDesc (rows : List EstimateItem) : List EstimateItem :=
  rows.insertionSort dateDesc

/-- Embedding of `lookup_latest_price`: latest row with this exact
(«품명», «규격») key, price known or not (`ORDER BY ... DESC LIMIT 1`). -/
def lookup_latest_price (db : List EstimateItem) («품명» «규격» : String) :
    Option EstimateItem :=
  (sortByDateDesc (db.filter (fun r => r.«품명» == «품명» && r.«규격» == «규격»))).head?

/-- Embedding of `lookup_candidates`: all rows with this exact key whose
«단가» is non-NULL, newest first. -/
def lookup_candidates (db : List EstimateItem) («품명» «규격» : String) :
    List EstimateItem :=
  sortByDateDesc
    (db.filter (fun r => r.«품명» == «품명» && r.«규격» == «규격» && r.«단가».isSome))

/-- Embedding of `lookup_latest_price_by_spec`. -/
def lookup_latest_price_by_spec (db : List EstimateItem) («규격» : String) :
    Option EstimateItem :=
  (sortByDateDesc (db.filter (fun r => r.«규격» == «규격»))).head?

/-- Embedding of `lookup_latest_price_by_name`. -/
def lookup_latest_price_by_name (db : List EstimateItem) («품명» : String) :
    Option EstimateItem :=
  (sortByDateDesc (db.filter (fun r => r.«품명» == «품명»))).head?

/-- Embedding of `lookup_latest_price_fuzzy_spec`: if the request's fuzzy
key is empty return `none`; otherwise scan every row with a non-empty
«규격», newest first, and return the first row passing the fuzzy
acceptance test. -/
def lookup_latest_price_fuzzy_spec (db : List EstimateItem) («규격» : String) :
    Option EstimateItem :=
  if normalize_code «규격» == "" then Option.none
  else
    (sortByDateDesc (db.filter (fun r => r.«규격» != ""))).find?
      (fun r => fuzzy_match «규격» r.«규격»)

/-- The straight-line tier cascade of `match_prices` (source lines
143-153): each later tier runs only when no earlier tier returned a row,
and `match_method` is the label of the tier whose lookup succeeded. -/
def resolveRecord (db : List EstimateItem) (row : RequestRow) :
    Option EstimateItem × Option String :=
  let m := lookup_latest_price db row.«품명» row.«규격»
  let mm := if m.isSome then some "품명+규격" else Option.none
  let step2 :=
    if m.isNone && row.«규격» != "" then
      let r := lookup_latest_price_by_spec db row.«규격»
      (r, if r.isSome then some "규격" else Option.none)
    else (m, mm)
  let step3 :=
    if step2.1.isNone && row.«규격» != "" then
      let r := lookup_latest_price_fuzzy_spec db row.«규격»
      (r, if r.isSome then some "규격-유사" else Option.none)
    else step2
  if step3.1.isNone && row.«품명» != "" then
    let r := lookup_latest_price_by_name db row.«품명»
    (r, if r.isSome then some "품명" else Option.none)
  else step3

/-- Projection of a DB row into a `candidates` entry. -/
def mkCandidate (c : EstimateItem) : Candidate :=
  { «단가» := c.«단가»
    «견적서파일» := c.source_file
    «시트» := c.source_sheet
    «견적날짜» := c.file_datetime
    A7 := c.a7_text }

/-- Body of the per-request loop of `match_prices`. -/
def matchOne (db : List EstimateItem) (row : RequestRow) : MatchedRow :=
  let candidates_rows :=
    if row.«품명» != "" && row.«규격» != "" then
      lookup_candidates db row.«품명» row.«규격»
    else []
  let candidates := candidates_rows.map mkCandidate
  match resolveRecord db row with
  | (some mr, match_method) =>
    match mr.«단가» with
    | some p =>
      { request := row
        matched := true
        match_method := match_method
        matched_source_file := some mr.source_file
        matched_source_sheet := some mr.source_sheet
        matched_file_datetime := some mr.file_datetime
        matched_a7_text := some mr.a7_text
        «단가» := some p
        «금액» := match row.«구매량» with
          | some q => some (p * q)
          | Option.none => Option.none
        status := "매칭"
        candidates := candidates }
    | Option.none =>
      { request := row
        matched := false
        match_method := match_method
        matched_source_file := some mr.source_file
        matched_source_sheet := some mr.source_sheet
        matched_file_datetime := some mr.file_datetime
        matched_a7_text := some mr.a7_text
        «단가» := Option.none
        «금액» := Option.none
        status := "단가 없음"
        candidates := candidates }
  | (Option.none, match_method) =>
      { request := row
        matched := false
        match_method := match_method
        matched_source_file := Option.none
        matched_source_sheet := Option.none
        matched_file_datetime := Option.none
        matched_a7_text := Option.none
        «단가» := Option.none
        «금액» := Option.none
        status := "단가 없음"
        candidates := candidates }

/-- Embedding of `match_prices`: one `MatchedRow` per request, in order. -/
def match_prices (db : List EstimateItem) (requests : List RequestRow) :
    List MatchedRow :=
  requests.map (matchOne db)

/-- Column labels required of an estimate-sheet header row
(`excel_utils.REQUIRED_HEADERS`). -/
def REQUIRED_HEADERS : List String := ["품명", "규격", "단위", "수량", "단가", "금액"]

/-- Column labels of a request-sheet header row
(`excel_utils.REQUEST_HEADERS`). -/
def REQUEST_HEADERS : List String := ["품명", "규격", "제조사", "단위", "구매량"]

/-- Loop body of `find_request_header_row` for one row: scan the
normalized cells left to right, recording the first column index of each
recognised label, and additionally mapping a cell equal to "수량" to the
"구매량" key when that key has no entry yet.  The Python dict is
modelled by an association list to which keys are appended at most
once. -/
def buildRequestHeaderMapAux : List String → Nat → List (String × Nat) →
    List (String × Nat)
  | [], _, m => m
  | c :: rest, i, m =>
    let m1 := if REQUEST_HEADERS.contains c && (m.lookup c).isNone
      then m ++ [(c, i)] else m
    let m2 := if c == "수량" && (m1.lookup "구매량").isNone
      then m1 ++ [("구매량", i)] else m1
    buildRequestHeaderMapAux rest (i + 1) m2

/-- Header map built from one normalized request-sheet row. -/
def buildRequestHeaderMap (cells : List String) : List (String × Nat) :=
  buildRequestHeaderMapAux cells 0 []

/-- Acceptance test of `find_request_header_row`: every label other than
"구매량" mapped, and "구매량" mapped (possibly via the "수량"
synonym). -/
def requestHeaderRowAccepted (m : List (String × Nat)) : Bool :=
  (REQUEST_HEADERS.filter (fun h => h != "구매량")).all
      (fun h => (m.lookup h).isSome)
    && (m.lookup "구매량").isSome

/-- Row scan of `find_request_header_row`. -/
def findRequestHeaderRowAux : List (List Cell) → Nat →
    Option (Nat × List (String × Nat))
  | [], _ => Option.none
  | row :: rest, idx =>
    let m := buildRequestHeaderMap (row.map normalize_text)
    if requestHeaderRowAccepted m then some (idx, m)
    else findRequestHeaderRowAux rest (idx + 1)

/-- Embedding of `excel_utils.find_request_header_row`: first row whose
header map passes the acceptance test, together with that map. -/
def find_request_header_row (grid : List (List Cell)) :
    Option (Nat × List (String × Nat)) :=
  findRequestHeaderRowAux grid 0

/-- Projection of a grid row to the cells of the given header columns,
as done at the top of the extraction loops (`row.iloc[col_idx]` when the
column exists, `None` otherwise). -/
def projectRow (header_map : List (String × Nat)) (keys : List String)
    (row : List Cell) : List Cell :=
  keys.map (fun k =>
    match header_map.lookup k with
    | some i => row.getD i Cell.none
    | Option.none => Cell.none)

/-- Test `any(normalize_text(values[key]) for key in ...)`: at least one
projected cell is non-empty after normalization. -/
def hasAnyData (values : List Cell) : Bool :=
  values.any (fun v => normalize_text v != "")

/-- Data-region loop shared by `iter_estimate_rows` and
`parse_request_sheet`: yield every row with data (resetting the empty
streak), skip blank rows seen before the first data row, and stop as
soon as the streak of consecutive blank rows reaches 2 after at least
one data row. -/
def extractRows : List (List Cell) → Nat → Nat → List (List Cell)
  | [], _, _ => []
  | r :: rest, data_rows, streak =>
    if hasAnyData r then r :: extractRows rest (data_rows + 1) 0
    else if data_rows > 0 then
      if streak + 1 ≥ 2 then []
      else extractRows rest data_rows (streak + 1)
    else extractRows rest data_rows streak

/-- Embedding of `excel_utils.iter_estimate_rows`: run the data-region
loop on the rows below the header, each projected to the required
columns. -/
def iter_estimate_rows (grid : List (List Cell)) (header_row : Nat)
    (header_map : List (String × Nat)) : List (List Cell) :=
  extractRows
    ((grid.drop (header_row + 1)).map (projectRow header_map REQUIRED_HEADERS))
    0 0

/-- Python's `str.strip()` over the modelled whitespace set. -/
def pyStrip (s : String) : String :=
  String.mk (((s.data.dropWhile pyIsSpace).reverse.dropWhile pyIsSpace).reverse)

/-- Textual form `str(value)` of a non-`None` cell. -/
def pyStr : Cell → String
  | Cell.none => "None"
  | Cell.nan => "nan"
  | Cell.str s => s

/-- Embedding of `excel_utils.extract_a7_text`: read the cell at row 7,
column 1 (0-based index (6, 0)); an out-of-range access yields `""`
(the `IndexError` path), a `None` value yields `""`, and any other value
is converted to text and stripped of leading and trailing whitespace. -/
def extract_a7_text (grid : List (List Cell)) : String :=
  match (grid.get? 6).bind (fun r => r.get? 0) with
  | Option.none => ""
  | some Cell.none => ""
  | some v => pyStrip (pyStr v)

/-- Modelled from the spec: the Price Resolution Engine as §4.5 of the
specification describes it — tiers tried in the order exact, spec_only,
spec_fuzzy, name_only, each tier attempted only when its required fields
are present, and resolution stopping at the first tier whose record has
a known 단가 (a priceless record causes the next tier to be tried).
This resolver is not in the source; it exists only to compare the
specified behaviour with `resolveRecord`/`matchOne`. -/
def specResolvePrice (db : List EstimateItem) (row : RequestRow) :
    Option (EstimateItem × String) :=
  let priced := fun (o : Option EstimateItem) =>
    match o with
    | some r => if r.«단가».isSome then some r else Option.none
    | Option.none => Option.none
  match priced (if row.«품명» != "" && row.«규격» != "" then
      lookup_latest_price db row.«품명» row.«규격» else Option.none) with
  | some r => some (r, "품명+규격")
  | Option.none =>
    match priced (if row.«규격» != "" then
        lookup_latest_price_by_spec db row.«규격» else Option.none) with
    | some r => some (r, "규격")
    | Option.none =>
      match priced (if row.«규격» != "" then
          lookup_latest_price_fuzzy_spec db row.«규격» else Option.none) with
      | some r => some (r, "규격-유사")
      | Option.none =>
        match priced (if row.«품명» != "" then
            lookup_latest_price_by_name db row.«품명» else Option.none) with
        | some r => some (r, "품명")
        | Option.none => Option.none

/-! ### Sample data used by witnesses and counterexamples -/

/-- Price history with a newer priced row under a different 품명 and an
older priceless row under the exact key (A, S). -/
def sampleDb1 : List EstimateItem :=
  [ { source_file := "f1", source_sheet := "s1", file_datetime := 1,
      a7_text := "a1", «품명» := "A", «규격» := "S", «단가» := Option.none },
    { source_file := "f2", source_sheet := "s2", file_datetime := 2,
      a7_text := "a2", «품명» := "B", «규격» := "S", «단가» := some 100 } ]

/-- Request for the exact key (A, S). -/
def sampleReq1 : RequestRow :=
  { source_file := "rf", source_sheet := "rs", «품명» := "A", «규격» := "S",
    «제조사» := "", «단위» := "EA", «구매량» := some 2 }

/-- Price history holding one priced row whose 규격 is empty. -/
def sampleDb2 : List EstimateItem :=
  [ { source_file := "f1", source_sheet := "s1", file_datetime := 1,
      a7_text := "a1", «품명» := "A", «규격» := "", «단가» := some 100 } ]

/-- Request whose 품명 has no history but whose 규격 does. -/
def sampleReq5 : RequestRow :=
  { source_file := "rf", source_sheet := "rs", «품명» := "Z", «규격» := "S",
    «제조사» := "", «단위» := "EA", «구매량» := Option.none }

/-- Request with an empty 규격. -/
def sampleReq2 : RequestRow :=
  { source_file := "rf", source_sheet := "rs", «품명» := "A", «규격» := "",
    «제조사» := "", «단위» := "", «구매량» := Option.none }

/-- Price history with a priceless row whose 규격 fuzzy-matches "AB-1"
only loosely, and a priced row reachable through the name-only tier. -/
def sampleDb6 : List EstimateItem :=
  [ { source_file := "g1", source_sheet := "t1", file_datetime := 1,
      a7_text := "b1", «품명» := "N", «규격» := "XAB-1",
      «단가» := Option.none },
    { source_file := "g2", source_sheet := "t2", file_datetime := 2,
      a7_text := "b2", «품명» := "P", «규격» := "", «단가» := some 50 } ]

/-- Request that misses the exact and spec-only tiers, fuzzy-matches the
priceless "XAB-1" row, and whose 품명 has a priced name-only row. -/
def sampleReq6 : RequestRow :=
  { source_file := "rf", source_sheet := "rs", «품명» := "P",
    «규격» := "AB-1", «제조사» := "", «단위» := "EA",
    «구매량» := Option.none }

/-- Request whose 규격 matches nothing at all, so only the name-only
tier can return a record. -/
def sampleReq7 : RequestRow :=
  { source_file := "rf", source_sheet := "rs", «품명» := "A",
    «규격» := "ZZZ", «제조사» := "", «단위» := "EA",
    «구매량» := Option.none }

/-! ### Facts about the tier cascade -/

theorem resolveRecord_exact_some (db : List EstimateItem) (req : RequestRow)
    (r : EstimateItem)
    (h : lookup_latest_price db req.«품명» req.«규격» = some r) :
    resolveRecord db req = (some r, some "품명+규격") := by
  simp [resolveRecord, h]

theorem matchOne_of_resolve (db : List EstimateItem) (req : RequestRow)
    (r : EstimateItem) (mm : Option String)
    (h : resolveRecord db req = (some r, mm)) :
    (matchOne db req).matched_source_file = some r.source_file ∧
    (matchOne db req).matched_source_sheet = some r.source_sheet ∧
    (matchOne db req).matched_file_datetime = some r.file_datetime ∧
    (matchOne db req).matched_a7_text = some r.a7_text ∧
    (matchOne db req).match_method = mm := by
  cases hp : r.«단가» <;> simp [matchOne, h, hp]

/-- C1: the claim says a tier returning a priceless record does not stop
resolution.  In the code any record returned by a tier stops the
cascade: on `sampleDb1`/`sampleReq1` the exact tier finds the priceless
(A, S) row and resolution ends unmatched, while the resolver described
by the specification would continue and price the request at 100 via
the spec-only tier. -/
theorem C1_counterexample :
    (specResolvePrice sampleDb1 sampleReq1).map
        (fun p => (p.1.«단가», p.2)) = some (some 100, "규격") ∧
    (matchOne sampleDb1 sampleReq1).matched = false ∧
    (matchOne sampleDb1 sampleReq1).«단가» = Option.none ∧
    (matchOne sampleDb1 sampleReq1).match_method = some "품명+규격" := by
  decide

/-- C1 (amended): resolution stops at the first tier — in the order
exact, spec_only, spec_fuzzy, name_only — that yields any PriceRecord,
whether or not its unit_price is known, and no later tier is consulted.
When the record found is priceless the result is unmatched with status
"단가 없음", the tier label retained in match_method, and the record's
provenance kept; in particular a priceless spec_fuzzy record blocks the
name_only tier, and name_only runs only when every earlier applicable
tier found nothing. -/
theorem C1_first_record_stops_cascade (db : List EstimateItem)
    (req : RequestRow) (r : EstimateItem) :
    (lookup_latest_price db req.«품명» req.«규격» = some r →
      resolveRecord db req = (some r, some "품명+규격") ∧
      (r.«단가» = Option.none →
        (matchOne db req).matched = false ∧
        (matchOne db req).«단가» = Option.none ∧
        (matchOne db req).status = "단가 없음" ∧
        (matchOne db req).matched_a7_text = some r.a7_text)) ∧
    (lookup_latest_price db req.«품명» req.«규격» = Option.none →
      req.«규격» ≠ "" →
      lookup_latest_price_by_spec db req.«규격» = some r →
      resolveRecord db req = (some r, some "규격") ∧
      (r.«단가» = Option.none →
        (matchOne db req).matched = false ∧
        (matchOne db req).«단가» = Option.none ∧
        (matchOne db req).status = "단가 없음")) ∧
    (lookup_latest_price db req.«품명» req.«규격» = Option.none →
      req.«규격» ≠ "" →
      lookup_latest_price_by_spec db req.«규격» = Option.none →
      lookup_latest_price_fuzzy_spec db req.«규격» = some r →
      resolveRecord db req = (some r, some "규격-유사") ∧
      (r.«단가» = Option.none →
        (matchOne db req).matched = false ∧
        (matchOne db req).«단가» = Option.none ∧
        (matchOne db req).status = "단가 없음" ∧
        (matchOne db req).matched_a7_text = some r.a7_text)) ∧
    (lookup_latest_price db req.«품명» req.«규격» = Option.none →
      req.«규격» ≠ "" →
      lookup_latest_price_by_spec db req.«규격» = Option.none →
      lookup_latest_price_fuzzy_spec db req.«규격» = Option.none →
      req.«품명» ≠ "" →
      lookup_latest_price_by_name db req.«품명» = some r →
      resolveRecord db req = (some r, some "품명") ∧
      (r.«단가» = Option.none →
        (matchOne db req).matched = false ∧
        (matchOne db req).«단가» = Option.none ∧
        (matchOne db req).status = "단가 없음")) ∧
    (lookup_latest_price db req.«품명» req.«규격» = Option.none →
      req.«규격» = "" →
      req.«품명» ≠ "" →
      lookup_latest_price_by_name db req.«품명» = some r →
      resolveRecord db req = (some r, some "품명") ∧
      (r.«단가» = Option.none →
        (matchOne db req).matched = false ∧
        (matchOne db req).«단가» = Option.none ∧
        (matchOne db req).status = "단가 없음")) := by
  refine ⟨?_, ?_, ?_, ?_, ?_⟩
  · intro h
    have hres := resolveRecord_exact_some db req r h
    exact ⟨hres, fun hp => by simp [matchOne, hres, hp]⟩
  · intro h1 h2 h3
    have hres : resolveRecord db req = (some r, some "규격") := by
      simp [resolveRecord, h1, h2, h3]
    exact ⟨hres, fun hp => by simp [matchOne, hres, hp]⟩
  · intro h1 h2 h3 h4
    have hres : resolveRecord db req = (some r, some "규격-유사") := by
      simp [resolveRecord, h1, h2, h3, h4]
    exact ⟨hres, fun hp => by simp [matchOne, hres, hp]⟩
  · intro h1 h2 h3 h4 h5 h6
    have hres : resolveRecord db req = (some r, some "품명") := by
      simp [resolveRecord, h1, h2, h3, h4, h5, h6]
    exact ⟨hres, fun hp => by simp [matchOne, hres, hp]⟩
  · intro h1 h2 h3 h4
    rw [h2] at h1
    have hres : resolveRecord db req = (some r, some "품명") := by
      simp [resolveRecord, h1, h2, h3, h4]
    exact ⟨hres, fun hp => by simp [matchOne, hres, hp]⟩

/-- Witness for the amended C1 on concrete data, one instance per tier:
the exact tier stops on the priceless (A, S) row; the spec-only tier
stops when exact found nothing; the fuzzy tier stops on the priceless
"XAB-1" row even though a priced name-only row for 품명 "P" exists; and
the name-only tier fires (with and without a 규격) only after every
earlier tier found nothing. -/
theorem C1_first_record_stops_cascade_witness :
    (resolveRecord sampleDb1 sampleReq1 =
      (some (sampleDb1.get ⟨0, by decide⟩), some "품명+규격") ∧
    (matchOne sampleDb1 sampleReq1).matched = false ∧
    (matchOne sampleDb1 sampleReq1).«단가» = Option.none ∧
    (matchOne sampleDb1 sampleReq1).status = "단가 없음" ∧
    (matchOne sampleDb1 sampleReq1).matched_a7_text =
      some (sampleDb1.get ⟨0, by decide⟩).a7_text) ∧
    resolveRecord sampleDb1 sampleReq5 =
      (some (sampleDb1.get ⟨1, by decide⟩), some "규격") ∧
    (resolveRecord sampleDb6 sampleReq6 =
      (some (sampleDb6.get ⟨0, by decide⟩), some "규격-유사") ∧
    (matchOne sampleDb6 sampleReq6).matched = false ∧
    (matchOne sampleDb6 sampleReq6).«단가» = Option.none ∧
    (matchOne sampleDb6 sampleReq6).status = "단가 없음" ∧
    (lookup_latest_price_by_name sampleDb6 sampleReq6.«품명»).map
      (fun e => e.«단가») = some (some 50)) ∧
    (resolveRecord sampleDb1 sampleReq7 =
      (some (sampleDb1.get ⟨0, by decide⟩), some "품명") ∧
    (matchOne sampleDb1 sampleReq7).matched = false ∧
    (matchOne sampleDb1 sampleReq7).status = "단가 없음") ∧
    resolveRecord sampleDb1 sampleReq2 =
      (some (sampleDb1.get ⟨0, by decide⟩), some "품명") := by
  refine ⟨?_, ?_, ?_, ?_, ?_⟩
  · have h := (C1_first_record_stops_cascade sampleDb1 sampleReq1
        (sampleDb1.get ⟨0, by decide⟩)).1 (by decide)
    have h2 := h.2 (by decide)
    exact ⟨h.1, h2.1, h2.2.1, h2.2.2.1, h2.2.2.2⟩
  · exact ((C1_first_record_stops_cascade sampleDb1 sampleReq5
        (sampleDb1.get ⟨1, by decide⟩)).2.1 (by decide) (by decide)
        (by decide)).1
  · have h := (C1_first_record_stops_cascade sampleDb6 sampleReq6
        (sampleDb6.get ⟨0, by decide⟩)).2.2.1 (by decide) (by decide)
        (by decide) (by decide)
    have h2 := h.2 (by decide)
    exact ⟨h.1, h2.1, h2.2.1, h2.2.2.1, by decide⟩
  · have h := (C1_first_record_stops_cascade sampleDb1 sampleReq7
        (sampleDb1.get ⟨0, by decide⟩)).2.2.2.1 (by decide) (by decide)
        (by decide) (by decide) (by decide) (by decide)
    have h2 := h.2 (by decide)
    exact ⟨h.1, h2.1, h2.2.2⟩
  · exact ((C1_first_record_stops_cascade sampleDb1 sampleReq2
        (sampleDb1.get ⟨0, by decide⟩)).2.2.2.2 (by decide) (by decide)
        (by decide) (by decide)).1

/-- C3: the claim says a request with an empty spec_code never resolves
via the exact tier.  On `sampleDb2`/`sampleReq2` the exact lookup is
issued with an empty 규격, matches the stored row whose 규격 is also
empty, and the request resolves with match_method "품명+규격". -/
theorem C3_counterexample :
    sampleReq2.«규격» = "" ∧
    (matchOne sampleDb2 sampleReq2).matched = true ∧
    (matchOne sampleDb2 sampleReq2).«단가» = some 100 ∧
    (matchOne sampleDb2 sampleReq2).match_method = some "품명+규격" := by
  decide

/-- C3 (amended): the exact tier is attempted unconditionally — the
cascade reports match_method "품명+규격" exactly when the exact lookup
(issued regardless of whether 품명 or 규격 is empty) returns a record;
hence a request with empty spec_code resolves via the exact tier
precisely when the store holds a record with the same 품명 and an empty
규격. -/
theorem C3_exact_tier_unconditional (db : List EstimateItem)
    (req : RequestRow) :
    (resolveRecord db req).2 = some "품명+규격" ↔
      (lookup_latest_price db req.«품명» req.«규격»).isSome := by
  cases h : lookup_latest_price db req.«품명» req.«규격» with
  | none =>
    simp only [Option.isSome_none, Bool.false_eq_true, iff_false]
    unfold resolveRecord
    rw [h]
    cases h2 : lookup_latest_price_by_spec db req.«규격» <;>
      cases h3 : lookup_latest_price_fuzzy_spec db req.«규격» <;>
        cases h4 : lookup_latest_price_by_name db req.«품명» <;>
          by_cases hs : req.«규격» = "" <;>
            by_cases hn : req.«품명» = "" <;>
              simp [hs, hn]
  | some r =>
    simp [resolveRecord, h]

/-- C6: the resolved 금액 is exactly 단가 × 구매량 when both are known
and unknown whenever either is unknown, never zero-defaulted. -/
theorem C6_amount_product (db : List EstimateItem) (req : RequestRow) :
    (matchOne db req).«금액» =
      match (matchOne db req).«단가», req.«구매량» with
      | some p, some q => some (p * q)
      | _, _ => Option.none := by
  rcases h : resolveRecord db req with ⟨m, mm⟩
  cases m with
  | none => simp [matchOne, h]
  | some r =>
    cases hp : r.«단가» with
    | none => simp [matchOne, h, hp]
    | some p => cases hq : req.«구매량» <;> simp [matchOne, h, hp, hq]

/-! ### Candidate list and provenance -/

theorem matchOne_candidates_eq (db : List EstimateItem) (req : RequestRow) :
    (matchOne db req).candidates =
      (if req.«품명» != "" && req.«규격» != "" then
          lookup_candidates db req.«품명» req.«규격»
        else []).map mkCandidate := by
  rcases h : resolveRecord db req with ⟨m, mm⟩
  cases m with
  | none => simp [matchOne, h]
  | some r => cases hp : r.«단가» <;> simp [matchOne, h, hp]

/-- Price history with two priced rows and one priceless row under the
exact key (A, S), out of timestamp order, plus an unrelated row. -/
def sampleDb3 : List EstimateItem :=
  [ { source_file := "f1", source_sheet := "s1", file_datetime := 1,
      a7_text := "a1", «품명» := "A", «규격» := "S", «단가» := some 100 },
    { source_file := "f3", source_sheet := "s3", file_datetime := 3,
      a7_text := "a3", «품명» := "A", «규격» := "S", «단가» := some 120 },
    { source_file := "f2", source_sheet := "s2", file_datetime := 2,
      a7_text := "a2", «품명» := "A", «규격» := "S", «단가» := Option.none },
    { source_file := "f4", source_sheet := "s4", file_datetime := 4,
      a7_text := "a4", «품명» := "C", «규격» := "S", «단가» := some 7 } ]

/-- C5: for a request whose 품명 and 규격 are both non-empty, the
candidates list of the result is exactly the image of
`lookup_candidates` — independent of which tier resolved the price — and
is a permutation of the priced rows under the exact key, sorted newest
first, every entry carrying a known 단가. -/
theorem C5_candidate_list (db : List EstimateItem) (req : RequestRow)
    (h1 : req.«품명» ≠ "") (h2 : req.«규격» ≠ "") :
    (matchOne db req).candidates =
      (lookup_candidates db req.«품명» req.«규격»).map mkCandidate ∧
    (matchOne db req).candidates.Perm
      ((db.filter (fun r => r.«품명» == req.«품명» &&
          r.«규격» == req.«규격» && r.«단가».isSome)).map mkCandidate) ∧
    List.Sorted (fun a b => b.«견적날짜» ≤ a.«견적날짜»)
      (matchOne db req).candidates ∧
    ∀ c ∈ (matchOne db req).candidates, c.«단가».isSome = true := by
  have hcond : (req.«품명» != "" && req.«규격» != "") = true := by
    simp [h1, h2]
  have hc : (matchOne db req).candidates =
      (lookup_candidates db req.«품명» req.«규격»).map mkCandidate := by
    rw [matchOne_candidates_eq, hcond]
    simp
  refine ⟨hc, ?_, ?_, ?_⟩
  · rw [hc]
    exact (List.perm_insertionSort dateDesc _).map mkCandidate
  · rw [hc]
    have hs := List.sorted_insertionSort dateDesc
      (db.filter (fun r => r.«품명» == req.«품명» &&
        r.«규격» == req.«규격» && r.«단가».isSome))
    exact List.pairwise_map.2 (hs.imp (fun hab => hab))
  · rw [hc]
    intro c hcmem
    rcases List.mem_map.1 hcmem with ⟨e, he, rfl⟩
    have hmem : e ∈ db.filter (fun r => r.«품명» == req.«품명» &&
        r.«규격» == req.«규격» && r.«단가».isSome) :=
      (List.mem_insertionSort dateDesc).1 he
    have hpred := (List.mem_filter.1 hmem).2
    simp only [Bool.and_eq_true] at hpred
    exact hpred.2

/-- Witness for C5 on `sampleDb3`: the request (A, S) has a known
candidate list regardless of resolution outcome. -/
theorem C5_candidate_list_witness :
    (matchOne sampleDb3 sampleReq1).candidates =
      (lookup_candidates sampleDb3 sampleReq1.«품명»
        sampleReq1.«규격»).map mkCandidate ∧
    (matchOne sampleDb3 sampleReq1).candidates.Perm
      ((sampleDb3.filter (fun r => r.«품명» == sampleReq1.«품명» &&
          r.«규격» == sampleReq1.«규격» && r.«단가».isSome)).map mkCandidate) ∧
    List.Sorted (fun a b => b.«견적날짜» ≤ a.«견적날짜»)
      (matchOne sampleDb3 sampleReq1).candidates ∧
    ∀ c ∈ (matchOne sampleDb3 sampleReq1).candidates,
      c.«단가».isSome = true :=
  C5_candidate_list sampleDb3 sampleReq1 (by decide) (by decide)

/-- Grid whose anchor cell (row 7, column 1) carries surrounding
whitespace. -/
def sampleGrid : List (List Cell) :=
  List.replicate 6 ([] : List Cell) ++ [[Cell.str " X "]]

/-- C9: the claim says the free_text_marker in a MatchResult equals the
raw anchor-cell content character for character.  On `sampleGrid` the
raw cell holds " X " but extraction strips it to "X". -/
theorem C9_counterexample :
    (sampleGrid.get? 6).bind (fun row => row.get? 0) =
      some (Cell.str " X ") ∧
    extract_a7_text sampleGrid ≠ " X " := by decide

/-- C9 (amended): source_document, source_section, effective_timestamp
and free_text_marker are copied unchanged from the resolved record into
the MatchResult; the free_text_marker, however, enters the record not as
the raw anchor-cell content but as its text stripped of leading and
trailing whitespace. -/
theorem C9_provenance_preserved :
    (∀ (db : List EstimateItem) (req : RequestRow) (r : EstimateItem)
        (mm : Option String), resolveRecord db req = (some r, mm) →
      (matchOne db req).matched_source_file = some r.source_file ∧
      (matchOne db req).matched_source_sheet = some r.source_sheet ∧
      (matchOne db req).matched_file_datetime = some r.file_datetime ∧
      (matchOne db req).matched_a7_text = some r.a7_text) ∧
    (∀ (g : List (List Cell)) (s : String),
      (g.get? 6).bind (fun row => row.get? 0) = some (Cell.str s) →
      extract_a7_text g = pyStrip s) := by
  constructor
  · intro db req r mm h
    have hm := matchOne_of_resolve db req r mm h
    exact ⟨hm.1, hm.2.1, hm.2.2.1, hm.2.2.2.1⟩
  · intro g s h
    unfold extract_a7_text
    rw [h]
    rfl

/-- Witness for the amended C9 on concrete data. -/
theorem C9_provenance_preserved_witness :
    ((matchOne sampleDb2 sampleReq2).matched_source_file = some "f1" ∧
      (matchOne sampleDb2 sampleReq2).matched_source_sheet = some "s1" ∧
      (matchOne sampleDb2 sampleReq2).matched_file_datetime = some 1 ∧
      (matchOne sampleDb2 sampleReq2).matched_a7_text = some "a1") ∧
    extract_a7_text sampleGrid = pyStrip " X " := by
  constructor
  · exact C9_provenance_preserved.1 sampleDb2 sampleReq2
      (sampleDb2.get ⟨0, by decide⟩) (some "품명+규격") (by decide)
  · exact C9_provenance_preserved.2 sampleGrid " X " (by decide)

/-! ### Fuzzy spec matching -/

/-- Price history with one priced row whose 규격 has a non-empty fuzzy
key. -/
def sampleDb4 : List EstimateItem :=
  [ { source_file := "f1", source_sheet := "s1", file_datetime := 1,
      a7_text := "a1", «품명» := "A", «규격» := "AB-1", «단가» := some 7 } ]

/-- C7: the claim asserts that a suffix relation between fuzzy keys (in
either direction) always yields a fuzzy match.  With a = "" and
b = "AB-1" the empty fuzzy key of a is a suffix of the key of b, yet
neither direction matches, and the fuzzy lookup with an empty spec
returns nothing even though `sampleDb4` holds a suffix-related row. -/
theorem C7_counterexample :
    pyEndsWith (normalize_code "AB-1") (normalize_code "") = true ∧
    fuzzy_match "" "AB-1" = false ∧
    fuzzy_match "AB-1" "" = false ∧
    lookup_latest_price_fuzzy_spec sampleDb4 "" = Option.none := by decide

/-- C7 (amended): whenever both fuzzy keys are non-empty, a suffix
relation in either direction yields a fuzzy match in both directions —
the rule is symmetric — but an empty fuzzy key on either side never
matches. -/
theorem C7_fuzzy_suffix_symmetric (a b : String)
    (ha : normalize_code a ≠ "") (hb : normalize_code b ≠ "")
    (h : pyEndsWith (normalize_code a) (normalize_code b) = true ∨
         pyEndsWith (normalize_code b) (normalize_code a) = true) :
    fuzzy_match a b = true ∧ fuzzy_match b a = true := by
  unfold fuzzy_match
  rcases h with h | h <;> simp [ha, hb, h]

/-- Witness for the amended C7: "AB-1" and "B1" fuzzy-match in both
directions. -/
theorem C7_fuzzy_suffix_symmetric_witness :
    fuzzy_match "AB-1" "B1" = true ∧ fuzzy_match "B1" "AB-1" = true :=
  C7_fuzzy_suffix_symmetric "AB-1" "B1" (by decide) (by decide)
    (Or.inl (by decide))

/-- C10: the fuzzy tier returns a record only when the request's fuzzy
key is non-empty and the record's 규격 is non-empty with a non-empty
fuzzy key; rows whose spec code normalizes to an empty skeleton are
skipped even though the empty string is a suffix of everything. -/
theorem C10_fuzzy_needs_nonempty_keys (db : List EstimateItem)
    (s : String) (r : EstimateItem)
    (h : lookup_latest_price_fuzzy_spec db s = some r) :
    normalize_code s ≠ "" ∧ r.«규격» ≠ "" ∧ normalize_code r.«규격» ≠ "" := by
  unfold lookup_latest_price_fuzzy_spec at h
  by_cases hc : (normalize_code s == "") = true
  · rw [if_pos hc] at h
    exact absurd h (by simp)
  · rw [if_neg hc] at h
    have hfind0 := List.find?_some h
    have hfind : fuzzy_match s r.«규격» = true := hfind0
    have hmem : r ∈ db.filter (fun x => x.«규격» != "") :=
      (List.mem_insertionSort dateDesc).1 (List.mem_of_find?_eq_some h)
    have hspec : (r.«규격» != "") = true := (List.mem_filter.1 hmem).2
    unfold fuzzy_match at hfind
    simp only [Bool.and_eq_true, bne_iff_ne, ne_eq] at hfind hspec ⊢
    exact ⟨by simpa using hc, hspec, hfind.1.2⟩

/-- Witness for C10: the fuzzy lookup of "B1" against `sampleDb4`
returns its row, whose keys are non-empty. -/
theorem C10_fuzzy_needs_nonempty_keys_witness :
    normalize_code "B1" ≠ "" ∧
    (sampleDb4.get ⟨0, by decide⟩).«규격» ≠ "" ∧
    normalize_code (sampleDb4.get ⟨0, by decide⟩).«규격» ≠ "" :=
  C10_fuzzy_needs_nonempty_keys sampleDb4 "B1"
    (sampleDb4.get ⟨0, by decide⟩) (by decide)

/-! ### Data-region extraction -/

theorem extractRows_data : ∀ (xs t : List (List Cell)) (d s : Nat),
    (∀ x ∈ xs, hasAnyData x = true) → xs ≠ [] →
    extractRows (xs ++ t) d s = xs ++ extractRows t (d + xs.length) 0 := by
  intro xs
  induction xs with
  | nil => intro t d s _ h; exact absurd rfl h
  | cons x rest ih =>
    intro t d s hall _
    have hx : hasAnyData x = true := hall x (by simp)
    have step : extractRows ((x :: rest) ++ t) d s =
        x :: extractRows (rest ++ t) (d + 1) 0 := by
      simp [extractRows, hx]
    cases rest with
    | nil => simpa using step
    | cons y ys =>
      have h2 := ih t (d + 1) 0 (fun z hz => hall z (by simp [hz]))
        (by simp)
      have harith : d + 1 + (y :: ys).length = d + (x :: y :: ys).length := by
        simp
        omega
      rw [harith] at h2
      rw [step, h2]
      rfl

theorem extractRows_leading_blanks : ∀ (bs rest : List (List Cell)) (s : Nat),
    (∀ x ∈ bs, hasAnyData x = false) →
    extractRows (bs ++ rest) 0 s = extractRows rest 0 s := by
  intro bs
  induction bs with
  | nil => intro rest s _; rfl
  | cons b bs ih =>
    intro rest s hall
    have hb : hasAnyData b = false := hall b (by simp)
    simp only [List.cons_append, extractRows, hb, Bool.false_eq_true,
      if_false, gt_iff_lt, Nat.lt_irrefl, ite_false]
    exact ih rest s (fun z hz => hall z (by simp [hz]))

/-- C2: the double-blank termination of the data-region scan is exact.
A single fully-blank row embedded between data rows is a tolerated gap
(all rows on both sides are yielded and the blank is not), two
consecutive fully-blank rows after at least one data row end extraction
before anything that follows, and fully-blank rows before the first
data row never count toward termination. -/
theorem C2_double_blank_termination :
    (∀ (xs ys : List (List Cell)) (b : List Cell),
        (∀ x ∈ xs, hasAnyData x = true) → xs ≠ [] →
        (∀ y ∈ ys, hasAnyData y = true) → hasAnyData b = false →
        extractRows (xs ++ b :: ys) 0 0 = xs ++ ys) ∧
    (∀ (xs : List (List Cell)) (b1 b2 : List Cell)
        (rest : List (List Cell)),
        (∀ x ∈ xs, hasAnyData x = true) → xs ≠ [] →
        hasAnyData b1 = false → hasAnyData b2 = false →
        extractRows (xs ++ b1 :: b2 :: rest) 0 0 = xs) ∧
    (∀ (bs rest : List (List Cell)),
        (∀ x ∈ bs, hasAnyData x = false) →
        extractRows (bs ++ rest) 0 0 = extractRows rest 0 0) := by
  refine ⟨?_, ?_, ?_⟩
  · intro xs ys b hxs hne hys hb
    rw [extractRows_data xs (b :: ys) 0 0 hxs hne]
    simp only [Nat.zero_add]
    have hd : 0 < xs.length := List.length_pos.2 hne
    have hstep : extractRows (b :: ys) xs.length 0 =
        extractRows ys xs.length 1 := by
      simp [extractRows, hb, hd]
    rw [hstep]
    cases ys with
    | nil => rfl
    | cons y ys' =>
      have h3 := extractRows_data (y :: ys') [] xs.length 1 hys (by simp)
      rw [List.append_nil] at h3
      have h4 : extractRows ([] : List (List Cell))
          (xs.length + (y :: ys').length) 0 = [] := rfl
      rw [h3, h4, List.append_nil]
  · intro xs b1 b2 rest hxs hne hb1 hb2
    rw [extractRows_data xs (b1 :: b2 :: rest) 0 0 hxs hne]
    simp only [Nat.zero_add]
    have hd : 0 < xs.length := List.length_pos.2 hne
    have hstep : extractRows (b1 :: b2 :: rest) xs.length 0 = [] := by
      simp [extractRows, hb1, hb2, hd]
    rw [hstep, List.append_nil]
  · intro bs rest hbs
    exact extractRows_leading_blanks bs rest 0 hbs

/-- Witness for C2 on concrete rows: one embedded blank keeps both
sides, a double blank stops before the following data, and a leading
blank is skipped. -/
theorem C2_double_blank_termination_witness :
    extractRows ([[Cell.str "x"]] ++ [Cell.none] :: [[Cell.str "y"]]) 0 0 =
      [[Cell.str "x"]] ++ [[Cell.str "y"]] ∧
    extractRows ([[Cell.str "x"]] ++
        [Cell.none] :: [Cell.none] :: [[Cell.str "z"]]) 0 0 =
      [[Cell.str "x"]] ∧
    extractRows ([[Cell.none]] ++ [[Cell.str "y"]]) 0 0 =
      extractRows [[Cell.str "y"]] 0 0 :=
  ⟨C2_double_blank_termination.1 [[Cell.str "x"]] [[Cell.str "y"]]
      [Cell.none] (by decide) (by decide) (by decide) (by decide),
    C2_double_blank_termination.2.1 [[Cell.str "x"]] [Cell.none]
      [Cell.none] [[Cell.str "z"]] (by decide) (by decide) (by decide)
      (by decide),
    C2_double_blank_termination.2.2 [[Cell.none]] [[Cell.str "y"]]
      (by decide)⟩

/-! ### Header-row location for request sheets -/

theorem lookup_append (m l : List (String × Nat)) (k : String) :
    (m ++ l).lookup k = (m.lookup k).or (l.lookup k) := by
  induction m with
  | nil => simp [List.lookup]
  | cons p m' ih =>
    by_cases h : (k == p.1) = true <;>
      simp [List.lookup, h, ih]

theorem lookup_preserved (m : List (String × Nat)) (c : String) (i : Nat)
    (k : String) (v : Nat) (h : m.lookup k = some v) :
    (m ++ [(c, i)]).lookup k = some v := by
  rw [lookup_append, h]
  rfl

theorem buildAux_lookup_some : ∀ (cells : List String) (i : Nat)
    (m : List (String × Nat)) (v : Nat),
    m.lookup "구매량" = some v →
    (buildRequestHeaderMapAux cells i m).lookup "구매량" = some v := by
  intro cells
  induction cells with
  | nil => intro i m v h; exact h
  | cons c rest ih =>
    intro i m v h
    simp only [buildRequestHeaderMapAux]
    apply ih
    cases hA : (REQUEST_HEADERS.contains c && (m.lookup c).isNone) with
    | false =>
      simp only [hA, Bool.false_eq_true, reduceIte]
      cases hB : ((c == "수량") && ((m.lookup "구매량").isNone)) with
      | false =>
        simp only [hB, Bool.false_eq_true, reduceIte]
        exact h
      | true =>
        exfalso
        rw [Bool.and_eq_true] at hB
        have h2 := hB.2
        rw [h] at h2
        simp at h2
    | true =>
      simp only [hA, reduceIte]
      cases hB : ((c == "수량") &&
          (((m ++ [(c, i)]).lookup "구매량").isNone)) with
      | false =>
        simp only [hB, Bool.false_eq_true, reduceIte]
        exact lookup_preserved m c i _ v h
      | true =>
        exfalso
        rw [Bool.and_eq_true] at hB
        have h2 := hB.2
        rw [lookup_preserved m c i _ v h] at h2
        simp at h2

/-- Index of the first column whose label is either "구매량" or "수량"
in a left-to-right scan; this is what the header scan actually records
as the purchase-quantity column. -/
def firstQuantityCol : List String → Option Nat
  | [] => Option.none
  | c :: rest =>
    if c == "구매량" || c == "수량" then some 0
    else (firstQuantityCol rest).map (· + 1)

theorem buildAux_lookup_none : ∀ (cells : List String) (i : Nat)
    (m : List (String × Nat)),
    m.lookup "구매량" = Option.none →
    (buildRequestHeaderMapAux cells i m).lookup "구매량" =
      (firstQuantityCol cells).map (· + i) := by
  intro cells
  induction cells with
  | nil => intro i m h; simpa [firstQuantityCol] using h
  | cons c rest ih =>
    intro i m h
    simp only [buildRequestHeaderMapAux, firstQuantityCol]
    by_cases hc1 : c = "구매량"
    · subst hc1
      have hA : (REQUEST_HEADERS.contains "구매량" &&
          ((m.lookup "구매량").isNone)) = true := by
        rw [h]
        decide
      have hm1 : (m ++ [("구매량", i)]).lookup "구매량" = some i := by
        rw [lookup_append, h]
        simp [List.lookup]
      have hB : (("구매량" == "수량") &&
          (((m ++ [("구매량", i)]).lookup "구매량").isNone)) = false := by
        have e : ("구매량" == "수량") = false := by decide
        rw [e, Bool.false_and]
      have hp : (("구매량" == "구매량") || ("구매량" == "수량")) = true := by
        decide
      simp only [hA, hB, hp, Bool.false_eq_true, reduceIte]
      rw [buildAux_lookup_some rest (i + 1) _ i hm1]
      simp
    · by_cases hc2 : c = "수량"
      · subst hc2
        have hA : (REQUEST_HEADERS.contains "수량" &&
            ((m.lookup "수량").isNone)) = false := by
          have e : REQUEST_HEADERS.contains "수량" = false := by decide
          rw [e, Bool.false_and]
        have hB : (("수량" == "수량") && ((m.lookup "구매량").isNone))
            = true := by
          rw [h]
          decide
        have hp : (("수량" == "구매량") || ("수량" == "수량")) = true := by
          decide
        have hm2 : (m ++ [("구매량", i)]).lookup "구매량" = some i := by
          rw [lookup_append, h]
          simp [List.lookup]
        simp only [hA, hB, hp, Bool.false_eq_true, reduceIte]
        rw [buildAux_lookup_some rest (i + 1) _ i hm2]
        simp
      · have hq : ("구매량" == c) = false :=
          beq_eq_false_iff_ne.mpr (Ne.symm hc1)
        have hs : (c == "수량") = false := beq_eq_false_iff_ne.mpr hc2
        have hm1 : (if (REQUEST_HEADERS.contains c && (m.lookup c).isNone)
              = true then m ++ [(c, i)] else m).lookup "구매량" =
            Option.none := by
          split
          · rw [lookup_append, h]
            simp [List.lookup, hq]
          · exact h
        simp only [hs, Bool.false_and, Bool.false_eq_true, reduceIte]
        rw [ih (i + 1) _ hm1]
        have e1 : (c == "구매량") = false := beq_eq_false_iff_ne.mpr hc1
        simp only [Bool.or_false, e1, Bool.false_eq_true, reduceIte]
        cases firstQuantityCol rest with
        | none => rfl
        | some n =>
          simp
          omega

/-- C4: the claim says the canonical "구매량" label always wins the
purchase-quantity column when both labels are present.  In the row
below, "수량" sits at column 4 and "구매량" at column 5, yet the header
map assigns 구매량 to column 4, and `find_request_header_row` accepts
the row with that assignment. -/
theorem C4_counterexample :
    "구매량" ∈ ["품명", "규격", "제조사", "단위", "수량", "구매량"] ∧
    ["품명", "규격", "제조사", "단위", "수량", "구매량"].get? 4 =
      some "수량" ∧
    ["품명", "규격", "제조사", "단위", "수량", "구매량"].get? 5 =
      some "구매량" ∧
    (buildRequestHeaderMap
      ["품명", "규격", "제조사", "단위", "수량", "구매량"]).lookup "구매량" =
      some 4 ∧
    (find_request_header_row
        [["품명", "규격", "제조사", "단위", "수량", "구매량"].map Cell.str]).map
      (fun p => p.2.lookup "구매량") = some (some 4) := by
  decide

/-- C4 (amended): the purchase-quantity column recorded by the header
scan is the first column labeled either "구매량" or "수량" in
left-to-right order; "수량" is therefore accepted as a synonym exactly
when no "구매량" (and no earlier "수량") column precedes it, and a
"수량" column that precedes the canonical label wins even when both are
present. -/
theorem C4_first_quantity_label_wins (cells : List String) :
    (buildRequestHeaderMap cells).lookup "구매량" = firstQuantityCol cells := by
  have h := buildAux_lookup_none cells 0 [] rfl
  unfold buildRequestHeaderMap
  rw [h]
  cases firstQuantityCol cells with
  | none => rfl
  | some n => simp

/-! ### Idempotence of the text normalizer -/

/-- Adjacent non-composability: the pair (a, b) admits no canonical
composition. -/
def NC (a b : Char) : Prop := composePair a b = Option.none

theorem composePair_out (a b c : Char) (h : composePair a b = some c) :
    c = Char.ofNat 0xE9 := by
  unfold composePair at h
  split at h
  · exact (Option.some_inj.1 h).symm
  · exact absurd h (by simp)

theorem composePair_none_into (x c : Char) (h : c = Char.ofNat 0xE9) :
    composePair x c = Option.none := by
  subst h
  unfold composePair
  rw [if_neg]
  rintro ⟨-, h2⟩
  exact absurd h2 (by decide)

theorem chain'_nfcAux : ∀ (l acc : List Char),
    List.Chain' (flip NC) acc → List.Chain' NC (nfcAux acc l) := by
  intro l
  induction l with
  | nil =>
    intro acc h
    exact List.chain'_reverse.2 h
  | cons c rest ih =>
    intro acc h
    cases acc with
    | nil => exact ih [c] (List.chain'_singleton c)
    | cons a acc' =>
      cases hcp : composePair a c with
      | some d =>
        simp only [nfcAux, hcp]
        apply ih
        have hd : d = Char.ofNat 0xE9 := composePair_out a c d hcp
        cases acc' with
        | nil => exact List.chain'_singleton d
        | cons a' acc'' =>
          exact List.Chain'.cons (composePair_none_into a' d hd)
            (List.chain'_cons.1 h).2
      | none =>
        simp only [nfcAux, hcp]
        apply ih
        exact List.Chain'.cons (show flip NC c a from hcp) h

theorem nfcAux_fixed : ∀ (l acc : List Char),
    List.Chain' NC (acc.reverse ++ l) → nfcAux acc l = acc.reverse ++ l := by
  intro l
  induction l with
  | nil =>
    intro acc _
    simp [nfcAux]
  | cons c rest ih =>
    intro acc h
    cases acc with
    | nil => simpa [nfcAux] using ih [c] (by simpa using h)
    | cons a acc' =>
      have hsplit := List.chain'_append.1 h
      have hlast : ((a :: acc').reverse).getLast? = some a := by
        rw [List.getLast?_reverse]
        rfl
      have hac : NC a c := hsplit.2.2 a hlast c rfl
      have hcp : composePair a c = Option.none := hac
      simp only [nfcAux, hcp]
      have hch : List.Chain' NC ((c :: a :: acc').reverse ++ rest) := by
        simpa [List.append_assoc] using h
      have := ih (c :: a :: acc') hch
      rw [this]
      simp [List.append_assoc]

theorem nfc_idem (l : List Char) : nfcChars (nfcChars l) = nfcChars l := by
  have h : List.Chain' NC (nfcChars l) :=
    chain'_nfcAux l [] List.chain'_nil
  have := nfcAux_fixed (nfcChars l) [] (by simpa using h)
  simpa [nfcChars] using this

theorem mem_nfcAux : ∀ (l acc : List Char) (c : Char), c ∈ nfcAux acc l →
    c ∈ acc ∨ c ∈ l ∨ c = Char.ofNat 0xE9 := by
  intro l
  induction l with
  | nil =>
    intro acc c h
    simp only [nfcAux, List.mem_reverse] at h
    exact Or.inl h
  | cons x rest ih =>
    intro acc c h
    cases acc with
    | nil =>
      rcases ih [x] c h with h1 | h2 | h3
      · simp only [List.mem_singleton] at h1
        exact Or.inr (Or.inl (by simp [h1]))
      · exact Or.inr (Or.inl (List.mem_cons_of_mem x h2))
      · exact Or.inr (Or.inr h3)
    | cons a acc' =>
      cases hcp : composePair a x with
      | some d =>
        simp only [nfcAux, hcp] at h
        rcases ih (d :: acc') c h with h1 | h2 | h3
        · rcases List.mem_cons.1 h1 with h1a | h1b
          · exact Or.inr (Or.inr (h1a ▸ composePair_out a x d hcp))
          · exact Or.inl (List.mem_cons_of_mem a h1b)
        · exact Or.inr (Or.inl (List.mem_cons_of_mem x h2))
        · exact Or.inr (Or.inr h3)
      | none =>
        simp only [nfcAux, hcp] at h
        rcases ih (x :: a :: acc') c h with h1 | h2 | h3
        · rcases List.mem_cons.1 h1 with h1a | h1b
          · exact Or.inr (Or.inl (by simp [h1a]))
          · exact Or.inl h1b
        · exact Or.inr (Or.inl (List.mem_cons_of_mem x h2))
        · exact Or.inr (Or.inr h3)

/-- Whitespace-free test on a cell: `None`/NaN trivially, a string when
none of its characters is whitespace. -/
def cellWsFree : Cell → Bool
  | Cell.str s => s.data.all (fun c => !pyIsSpace c)
  | _ => true

/-- C8: the claim asserts idempotence for every input.  On the input
"e ́" (an e, a space, a combining acute accent) the first
normalization removes the space and juxtaposes the base letter with the
combining mark; the second normalization then NFC-composes the pair into
U+00E9, so the two results differ. -/
theorem C8_counterexample :
    normalize_text (Cell.str (normalize_text (Cell.str "e ́"))) ≠
      normalize_text (Cell.str "e ́") := by decide

/-- C8 (amended): normalization is idempotent on every input whose text
contains no whitespace character (in particular on `None`/NaN); in
general, removing whitespace can juxtapose a base character with a
combining mark that canonical composition then merges, so idempotence
can fail on inputs with internal whitespace. -/
theorem C8_idempotent_on_wsfree (x : Cell) (h : cellWsFree x = true) :
    normalize_text (Cell.str (normalize_text x)) = normalize_text x := by
  cases x with
  | none => rfl
  | nan => rfl
  | str s =>
    have hws : ∀ c ∈ s.data, pyIsSpace c = false := by
      intro c hc
      have := (List.all_eq_true.1 h) c hc
      simpa using this
    have hws2 : ∀ c ∈ nfcChars s.data, pyIsSpace c = false := by
      intro c hc
      rcases mem_nfcAux s.data [] c hc with h1 | h2 | h3
      · simp at h1
      · exact hws c h2
      · rw [h3]
        decide
    have hfil : (nfcChars s.data).filter (fun c => !pyIsSpace c) =
        nfcChars s.data :=
      List.filter_eq_self.2 (fun a ha => by simp [hws2 a ha])
    have e1 : normalize_text (Cell.str s) = String.mk (nfcChars s.data) := by
      simp only [normalize_text]
      rw [hfil]
    rw [e1]
    simp only [normalize_text]
    rw [nfc_idem, hfil]

/-- Witness for the amended C8 on a whitespace-free string. -/
theorem C8_idempotent_on_wsfree_witness :
    normalize_text (Cell.str (normalize_text (Cell.str "ab-c"))) =
      normalize_text (Cell.str "ab-c") :=
  C8_idempotent_on_wsfree (Cell.str "ab-c") (by decide)

end Auto3
